import Mathlib

/-!
Verification of the storage / path-resolution core of the traders_sender
file server (src/server.py) against its natural-language specification.
The Python functions are shallowly embedded as executable Lean definitions;
the filesystem is modelled explicitly where an operation reads or mutates it.
-/

namespace Traders

/- ## Access guard (src/server.py:91-120) -/

/-- Outcome of the API-key guard `check_api_key` (src/server.py:91-120). -/
inductive AuthOutcome
  | authorized
  | missingKey
  | invalidKey
deriving DecidableEq

/-- The key-extraction step of `check_api_key` (src/server.py:101-106):
`header` models `request.headers.get('X-API-Key')` and `query` models
`request.args.get('api_key')`, with `none` for an absent header/parameter.
Python's `if not api_key` is true both for `None` and for the empty string,
so an empty header falls through to the query parameter. -/
def effectiveKey (header query : Option String) : Option String :=
  match header with
  | none => query
  | some h => if h = "" then query else some h

/-- The validation step of `check_api_key` (src/server.py:108-120):
a falsy (absent or empty) key is rejected as missing, then the key is
compared for exact equality with the configured secret. -/
def classifyKey (k : Option String) (apiKey : String) : AuthOutcome :=
  match k with
  | none => .missingKey
  | some v =>
    if v = "" then .missingKey
    else if v ≠ apiKey then .invalidKey
    else .authorized

/-- Shallow embedding of `check_api_key` (src/server.py:91-120). -/
def check_api_key (header query : Option String) (apiKey : String) : AuthOutcome :=
  classifyKey (effectiveKey header query) apiKey

/-- The configured secret (src/server.py:37): `os.environ.get('API_KEY', '')`,
i.e. the value of the `API_KEY` environment variable, defaulting to the
empty string when the variable is unset. -/
def apiKeyConfig (envVal : Option String) : String :=
  match envVal with
  | none => ""
  | some v => v

theorem classifyKey_ne_authorized_of_empty (k : Option String) :
    classifyKey k "" ≠ .authorized := by
  match k with
  | none => simp [classifyKey]
  | some v =>
    by_cases h : v = "" <;> simp [classifyKey, h]

/-- C4: with no key on either channel the guard answers `MissingKey`; a
(non-empty, i.e. actually presented) key differing from the secret answers
`InvalidKey`; a presented key equal to the secret answers `Authorized`; and
presenting any key via the header or via the query parameter produces the
same outcome. -/
theorem check_api_key_guard (secret k : String) :
    check_api_key none none secret = .missingKey ∧
    (k ≠ "" → k ≠ secret →
      check_api_key (some k) none secret = .invalidKey ∧
      check_api_key none (some k) secret = .invalidKey) ∧
    (secret ≠ "" →
      check_api_key (some secret) none secret = .authorized ∧
      check_api_key none (some secret) secret = .authorized) ∧
    check_api_key (some k) none secret = check_api_key none (some k) secret := by
  refine ⟨rfl, ?_, ?_, ?_⟩
  · intro hne hdiff
    constructor <;> simp [check_api_key, effectiveKey, classifyKey, hne, hdiff]
  · intro hs
    constructor <;> simp [check_api_key, effectiveKey, classifyKey, hs]
  · by_cases hk : k = "" <;> simp [check_api_key, effectiveKey, classifyKey, hk]

/-- Witness for `check_api_key_guard` at concrete inputs. -/
theorem check_api_key_guard_witness :
    check_api_key (some ("ab")) none ("abc") = .invalidKey ∧
    check_api_key (some ("abc")) none ("abc") = .authorized ∧
    check_api_key none none ("abc") = .missingKey :=
  ⟨((check_api_key_guard ("abc") ("ab")).2.1 (by decide) (by decide)).1,
   ((check_api_key_guard ("abc") ("ab")).2.2.1 (by decide)).1,
   (check_api_key_guard ("abc") ("ab")).1⟩

/-- C9: an empty `X-API-Key` header is treated as absent: the guard falls
through to the `api_key` query parameter, and if that too is empty or absent
the outcome is `MissingKey`, not `InvalidKey` — key presence is tested by
string truthiness. -/
theorem empty_header_falls_through (q : Option String) (secret : String) :
    check_api_key (some ("")) q secret = check_api_key none q secret ∧
    check_api_key (some ("")) none secret = .missingKey ∧
    check_api_key (some ("")) (some ("")) secret = .missingKey := by
  refine ⟨rfl, rfl, rfl⟩

/-- C10: when the configured secret is the empty string (the default, since
`API_KEY` defaults to `''` when the environment variable is unset), no
request is ever authorized: absent or empty keys give `MissingKey` and every
non-empty presented key gives `InvalidKey`. -/
theorem empty_secret_never_authorized (header query : Option String) (k : String) :
    apiKeyConfig none = "" ∧
    check_api_key header query "" ≠ .authorized ∧
    (k ≠ "" →
      check_api_key (some k) none "" = .invalidKey ∧
      check_api_key none (some k) "" = .invalidKey) ∧
    check_api_key none none "" = .missingKey ∧
    check_api_key (some ("")) (some ("")) "" = .missingKey := by
  refine ⟨rfl, classifyKey_ne_authorized_of_empty _, ?_, rfl, rfl⟩
  intro hk
  constructor <;> simp [check_api_key, effectiveKey, classifyKey, hk]

/-- Witness for `empty_secret_never_authorized` at concrete inputs. -/
theorem empty_secret_never_authorized_witness :
    check_api_key (some ("x")) none "" = .invalidKey ∧
    check_api_key (some ("x")) (some ("y")) "" ≠ .authorized :=
  ⟨((empty_secret_never_authorized (some ("x")) none ("x")).2.2.1 (by decide)).1,
   (empty_secret_never_authorized (some ("x")) (some ("y")) ("x")).2.1⟩

/- ## Filename sanitization (werkzeug `secure_filename`, called at
src/server.py:296 and src/server.py:406) -/

/-- Characters that werkzeug's `secure_filename` keeps (its
`_filename_ascii_strip_re` removes everything outside `A-Za-z0-9_.-`). -/
def sfKeep (c : Char) : Bool :=
  ('A' ≤ c && c ≤ 'Z') || ('a' ≤ c && c ≤ 'z') || ('0' ≤ c && c ≤ '9') ||
    c = '_' || c = '.' || c = '-'

/-- Python `str.split()` whitespace (space, tab, LF, VT, FF, CR). -/
def pySpace (c : Char) : Bool :=
  c.toNat = 32 || c.toNat = 9 || c.toNat = 10 || c.toNat = 11 ||
    c.toNat = 12 || c.toNat = 13

/-- Helper for `splitWs`: accumulates the current word (reversed). -/
def splitWsAux : List Char → List Char → List (List Char)
  | [], acc => if acc = [] then [] else [acc.reverse]
  | c :: rest, acc =>
    if pySpace c then
      if acc = [] then splitWsAux rest []
      else acc.reverse :: splitWsAux rest []
    else splitWsAux rest (c :: acc)

/-- Python `str.split()` with no argument: split on runs of whitespace,
discarding empty words. -/
def splitWs (s : List Char) : List (List Char) :=
  splitWsAux s []

/-- Python `str.strip('._')`: remove leading and trailing `.` and `_`. -/
def stripDotUnders (s : List Char) : List Char :=
  (((s.dropWhile (fun c => c = '.' || c = '_')).reverse.dropWhile
      (fun c => c = '.' || c = '_'))).reverse

/-- Shallow embedding of werkzeug's `secure_filename` on POSIX (as imported
at src/server.py:29): NFKD-normalize and ASCII-encode with `ignore`
(modelled for ASCII text by dropping non-ASCII characters), replace the path
separator `/` by a space (`os.path.altsep` is `None` on POSIX), split on
whitespace and rejoin with `_`, drop every character outside `A-Za-z0-9_.-`,
and strip leading/trailing `.` and `_`.  The result may be empty. -/
def secure_filename (s : List Char) : List Char :=
  let ascii := s.filter (fun c => c.toNat < 128)
  let sep := ascii.map (fun c => if c = '/' then ' ' else c)
  let joined := List.intercalate ['_'] (splitWs sep)
  stripDotUnders (joined.filter sfKeep)

/-- The stored-filename computation of `upload_file` (src/server.py:296):
`filename = secure_filename(file.filename)`, used directly as the saved
name with no emptiness check and no placeholder substitution. -/
def upload_stored_name (raw : List Char) : List Char :=
  secure_filename raw

theorem dropWhile_head_false {p : Char → Bool} :
    ∀ {l c rest}, List.dropWhile p l = c :: rest → p c = false := by
  intro l
  induction l with
  | nil => intro c rest h; simp [List.dropWhile] at h
  | cons a t ih =>
    intro c rest h
    by_cases hp : p a
    · rw [List.dropWhile_cons_of_pos hp] at h
      exact ih h
    · rw [List.dropWhile_cons_of_neg hp] at h
      cases h
      exact Bool.of_not_eq_true hp

theorem stripDotUnders_subset {l : List Char} {c : Char}
    (h : c ∈ stripDotUnders l) : c ∈ l := by
  unfold stripDotUnders at h
  rw [List.mem_reverse] at h
  have h2 := (List.dropWhile_sublist _).subset h
  rw [List.mem_reverse] at h2
  exact (List.dropWhile_sublist _).subset h2

theorem stripDotUnders_head_false {l : List Char} {c : Char} {rest : List Char}
    (h : stripDotUnders l = c :: rest) : (c = '.' || c = '_') = false := by
  unfold stripDotUnders at h
  set q : Char → Bool := fun c => c = '.' || c = '_' with hq
  set d : List Char := l.dropWhile q with hd
  have hsplit : d.reverse.takeWhile q ++ d.reverse.dropWhile q = d.reverse :=
    List.takeWhile_append_dropWhile q d.reverse
  have he : d.reverse.dropWhile q = (c :: rest).reverse := by
    have := congrArg List.reverse h
    rwa [List.reverse_reverse] at this
  have hdrev : d.reverse = d.reverse.takeWhile q ++ (c :: rest).reverse := by
    rw [← he, hsplit]
  have hdeq : d = c :: (rest ++ (d.reverse.takeWhile q).reverse) := by
    have h2 := congrArg List.reverse hdrev
    simpa [List.reverse_append, List.reverse_reverse] using h2
  exact dropWhile_head_false hdeq

/-- Counterexample to C2: the sanitizer actually used by the code returns
the empty string on the raw segment `".."` (and the call site at
src/server.py:296 substitutes no placeholder), so the sanitized segment can
be empty. -/
theorem sanitize_empty_counterexample :
    secure_filename (String.toList ("..")) = [] ∧
    upload_stored_name (String.toList ("..")) = [] ∧
    String.toList ("..") ≠ [] := by
  refine ⟨rfl, rfl, by decide⟩

/-- C2 (amended): every character of a sanitized segment is in the safe set
`A-Za-z0-9_.-` — in particular no path separators and no null bytes survive —
and the result never starts with a dot or an underscore; but the result may
be empty and no placeholder is substituted. -/
theorem secure_filename_safe (raw : List Char) :
    (∀ c ∈ secure_filename raw, sfKeep c = true ∧ c ≠ '/' ∧ c ≠ Char.ofNat 0) ∧
    (∀ rest, secure_filename raw ≠ '.' :: rest) ∧
    (∀ rest, secure_filename raw ≠ '_' :: rest) := by
  refine ⟨?_, ?_, ?_⟩
  · intro c hc
    have hmem : c ∈ (List.intercalate ['_']
        (splitWs ((raw.filter (fun c => c.toNat < 128)).map
          (fun c => if c = '/' then ' ' else c)))).filter sfKeep :=
      stripDotUnders_subset hc
    have hkeep : sfKeep c = true := (List.mem_filter.mp hmem).2
    refine ⟨hkeep, ?_, ?_⟩
    · intro hslash
      subst hslash
      exact absurd hkeep (by decide)
    · intro hzero
      subst hzero
      exact absurd hkeep (by decide)
  · intro rest h
    have := stripDotUnders_head_false h
    simp at this
  · intro rest h
    have := stripDotUnders_head_false h
    simp at this

/-- Witness for `secure_filename_safe` at a concrete input. -/
theorem secure_filename_safe_witness :
    (sfKeep 'x' = true ∧ 'x' ≠ '/' ∧ 'x' ≠ Char.ofNat 0) ∧
    secure_filename (String.toList (".x/y")) ≠ '.' :: [] :=
  ⟨(secure_filename_safe (String.toList (".x/y"))).1 'x' (by decide),
   (secure_filename_safe (String.toList (".x/y"))).2.1 []⟩

/- ## Paths and the explicit-path fetch endpoint (src/server.py:383-440) -/

/-- A POSIX pure path, as `pathlib` represents it: an absolute flag and the
list of segments.  Parsing drops empty and `.` segments and keeps `..`. -/
structure PurePath where
  abs : Bool
  segs : List (List Char)
deriving DecidableEq

/-- Helper for `splitSlash`: accumulates the current segment (reversed). -/
def splitSlashAux : List Char → List Char → List (List Char)
  | [], acc => [acc.reverse]
  | c :: rest, acc =>
    if c = '/' then acc.reverse :: splitSlashAux rest []
    else splitSlashAux rest (c :: acc)

/-- Python `str.split('/')` (src/server.py:405): splits at every `/`,
keeping empty segments. -/
def splitSlash (s : List Char) : List (List Char) :=
  splitSlashAux s []

/-- `pathlib.PurePosixPath(s)`: absolute iff the text starts with `/`;
empty and `.` segments are dropped, `..` segments are kept. -/
def parsePath (s : List Char) : PurePath :=
  { abs := match s with
      | '/' :: _ => true
      | _ => false,
    segs := (splitSlash s).filter (fun seg => seg ≠ [] && seg ≠ ['.']) }

/-- `pathlib`'s `/` operator: an absolute right operand replaces the left
operand entirely. -/
def pathJoin (a b : PurePath) : PurePath :=
  if b.abs then b else { abs := a.abs, segs := a.segs ++ b.segs }

/-- Lexical processing of `..` segments, as `Path.resolve()` does on a
symlink-free tree: `..` pops the previous segment, and `..` at the root is
dropped.  First argument is the stack of already-resolved segments
(reversed). -/
def resolveSegs : List (List Char) → List (List Char) → List (List Char)
  | acc, [] => acc.reverse
  | acc, s :: rest =>
    if s = ['.', '.'] then
      match acc with
      | [] => resolveSegs [] rest
      | _ :: acc2 => resolveSegs acc2 rest
    else resolveSegs (s :: acc) rest

/-- `Path.resolve()` on an absolute path in a symlink-free filesystem. -/
def resolvePath (p : PurePath) : PurePath :=
  { abs := p.abs, segs := resolveSegs [] p.segs }

/-- `p.relative_to(root)` succeeds — the path is inside the storage root —
iff the resolved root's segments are a prefix of the resolved path's
segments (src/server.py:416). -/
def withinRoot (root p : PurePath) : Bool :=
  root.abs == p.abs && root.segs.isPrefixOf p.segs

/-- `BASE_FOLDER = Path('/tools/trader_sender/data/')` (src/server.py:34). -/
def BASE_FOLDER : PurePath :=
  { abs := true,
    segs := [String.toList ("tools"), String.toList ("trader_sender"),
             String.toList ("data")] }

/-- Outcome of the explicit-path fetch `get_file` (src/server.py:383-440),
after the API-key check has passed: `pathEscape` is the 400 invalid-path
answer, `notFound` the 404, `served p` streams the file at resolved path
`p`.  The handler performs no filesystem mutation on any branch. -/
inductive FetchOutcome
  | pathEscape
  | notFound
  | served (p : PurePath)
deriving DecidableEq

/-- The path computed by `get_file` (src/server.py:404-416): split the raw
`filepath` on `/`, sanitize each part with `secure_filename`, rejoin with
`/`, join onto `BASE_FOLDER` and canonicalize. -/
def sanitizedResolve (filepath : List Char) : PurePath :=
  resolvePath (pathJoin BASE_FOLDER
    (parsePath (List.intercalate ['/'] ((splitSlash filepath).map secure_filename))))

/-- Canonical resolution of the raw supplied path against the storage root,
with no sanitization: what "the supplied path canonically resolves to"
denotes in the spec. -/
def rawResolve (filepath : List Char) : PurePath :=
  resolvePath (pathJoin BASE_FOLDER (parsePath filepath))

/-- Shallow embedding of the path-resolution and serving logic of `get_file`
(src/server.py:403-434).  `fs` is the set of resolved absolute paths of the
regular files on disk; `filepath` is the raw `<path:filepath>` URL
parameter.  The escape check (src/server.py:415-421) runs before the
existence check and before any file is opened. -/
def get_file (fs : List PurePath) (filepath : List Char) : FetchOutcome :=
  let r := sanitizedResolve filepath
  if withinRoot (resolvePath BASE_FOLDER) r then
    if fs.contains r then .served r else .notFound
  else .pathEscape

/-- Counterexample to C1: the supplied path `a/../../b` canonically resolves
outside the storage root, yet the endpoint does not answer PathEscape —
sanitization first rewrites the `..` segments to empty segments, and the
request is then served from `<root>/a/b` when that file exists. -/
theorem raw_escape_not_rejected_counterexample :
    withinRoot (resolvePath BASE_FOLDER)
      (rawResolve (String.toList ("a/../../b"))) = false ∧
    get_file [⟨true, [String.toList ("tools"), String.toList ("trader_sender"),
        String.toList ("data"), String.toList ("a"), String.toList ("b")]⟩]
      (String.toList ("a/../../b")) =
      .served ⟨true, [String.toList ("tools"), String.toList ("trader_sender"),
        String.toList ("data"), String.toList ("a"), String.toList ("b")]⟩ :=
  ⟨by decide, by decide⟩

/-- C1 (amended): the escape check applies to the sanitized path, not the
raw one: `get_file` answers PathEscape exactly when the sanitized supplied
path canonically resolves outside the storage root — the decision is
independent of the filesystem, so it happens before any file is opened —
and any file it serves has a resolved path inside the storage root.  (The
handler never mutates the filesystem: the embedding is read-only.)  A raw
path whose `..` segments escape the root may instead be neutralized by
sanitization and answered with NotFound or a served in-root file. -/
theorem get_file_escape_check (fs : List PurePath) (filepath : List Char) :
    (get_file fs filepath = .pathEscape ↔
      withinRoot (resolvePath BASE_FOLDER) (sanitizedResolve filepath) = false) ∧
    (∀ p, get_file fs filepath = .served p →
      withinRoot (resolvePath BASE_FOLDER) p = true ∧ fs.contains p = true) := by
  unfold get_file
  by_cases hw : withinRoot (resolvePath BASE_FOLDER) (sanitizedResolve filepath) = true
  · by_cases hc : fs.contains (sanitizedResolve filepath) = true
    · simp only [hw, hc, if_pos]
      refine ⟨by simp [hw], ?_⟩
      intro p hp
      cases hp
      exact ⟨hw, hc⟩
    · simp only [hw, hc, if_pos]
      refine ⟨by simp [hw, hc], ?_⟩
      intro p hp
      simp [hc] at hp
  · have hw2 : withinRoot (resolvePath BASE_FOLDER) (sanitizedResolve filepath) = false :=
      Bool.of_not_eq_true hw
    simp [hw2]

/-- Witness for `get_file_escape_check`: the path `../x` sanitizes to the
absolute path `/x`, which resolves outside the root, so the answer is
PathEscape regardless of the filesystem. -/
theorem get_file_escape_check_witness :
    get_file [] (String.toList ("../x")) = .pathEscape :=
  (get_file_escape_check [] (String.toList ("../x"))).1.mpr (by decide)

/- ## Bucket contents, retrieval resolution and bulk delete
(src/server.py:65-88 and 160-228) -/

/-- Kind of a directory entry. -/
inductive EntryKind
  | file
  | dir
deriving DecidableEq

/-- A directory entry as observed through `Path.iterdir()`: name, kind,
modification time, size. -/
structure Entry where
  name : String
  kind : EntryKind
  mtime : Nat
  size : Nat
deriving DecidableEq

/-- `item.is_file()`. -/
def isFileEntry (e : Entry) : Bool :=
  match e.kind with
  | .file => true
  | .dir => false

/-- `f.name.startswith('.')`: the first character is a dot. -/
def isHidden (e : Entry) : Bool :=
  match e.name.toList with
  | [] => false
  | c :: _ => c = '.'

/-- The file enumeration of `download_file` (src/server.py:186) and
`list_files` (src/server.py:343): regular, non-hidden files only. -/
def visibleFiles (es : List Entry) : List Entry :=
  es.filter (fun e => isFileEntry e && !isHidden e)

/-- The comparison behind `sorted(..., key=lambda p: p.stat().st_mtime,
reverse=True)`: `a` may precede `b` iff `b`'s mtime is at most `a`'s. -/
def mtimeLe (a b : Entry) : Bool :=
  decide (b.mtime ≤ a.mtime)

/-- Python's `sorted(files, key=mtime, reverse=True)`: a stable sort that
orders entries by modification time descending (src/server.py:213 and
353/368). -/
def sortByMtimeDesc (es : List Entry) : List Entry :=
  es.mergeSort mtimeLe

/-- Outcome of `download_file` (src/server.py:160-228). -/
inductive RetrievalOutcome
  | notFound
  | emptyBucket
  | singleFile (f : Entry)
  | fileListing (count : Nat) (files : List Entry)
deriving DecidableEq

/-- Shallow embedding of `download_file` (src/server.py:160-228): `bucket`
is `none` when today's directory does not exist (or is not a directory),
otherwise the entries it contains.  404 with a no-directory message maps to
`notFound`, 404 with a no-files message to `emptyBucket`, a direct
`send_file` to `singleFile`, and the JSON listing (count plus entries
sorted by mtime descending) to `fileListing`. -/
def download_file (bucket : Option (List Entry)) : RetrievalOutcome :=
  match bucket with
  | none => .notFound
  | some es =>
    match visibleFiles es with
    | [] => .emptyBucket
    | [f] => .singleFile f
    | f :: g :: rest =>
        .fileListing (f :: g :: rest).length (sortByMtimeDesc (f :: g :: rest))

/-- C3: retrieval resolution follows the four-way decision tree — missing
bucket ⇒ NotFound, no regular non-hidden file ⇒ Empty, exactly one ⇒
SingleFile streamed directly, two or more ⇒ FileListing whose count equals
the number of such files. -/
theorem download_file_decision_tree (bucket : Option (List Entry)) :
    (bucket = none → download_file bucket = .notFound) ∧
    (∀ es, bucket = some es →
      (visibleFiles es = [] → download_file bucket = .emptyBucket) ∧
      (∀ f, visibleFiles es = [f] → download_file bucket = .singleFile f) ∧
      (2 ≤ (visibleFiles es).length →
        download_file bucket = .fileListing (visibleFiles es).length
          (sortByMtimeDesc (visibleFiles es)))) := by
  constructor
  · intro h
    subst h
    rfl
  · intro es hes
    subst hes
    refine ⟨?_, ?_, ?_⟩
    · intro h
      simp [download_file, h]
    · intro f h
      simp [download_file, h]
    · intro h
      match hv : visibleFiles es with
      | [] => rw [hv] at h; simp at h
      | [f] => rw [hv] at h; simp at h
      | f :: g :: rest => simp [download_file, hv]

/-- Witness for `download_file_decision_tree`: a bucket with two visible
files resolves to a listing with count 2. -/
theorem download_file_decision_tree_witness :
    download_file (some [⟨"a", .file, 1, 5⟩, ⟨"b", .file, 2, 6⟩]) =
      .fileListing
        (visibleFiles [⟨"a", .file, 1, 5⟩, ⟨"b", .file, 2, 6⟩]).length
        (sortByMtimeDesc (visibleFiles [⟨"a", .file, 1, 5⟩, ⟨"b", .file, 2, 6⟩])) :=
  ((download_file_decision_tree
      (some [⟨"a", .file, 1, 5⟩, ⟨"b", .file, 2, 6⟩])).2 _ rfl).2.2 (by decide)

/-- The loop of `delete_directory_files` (src/server.py:79-83) on the
success path: unlink every regular file, count them, keep the rest. -/
def deleteFilesLoop : List Entry → Nat × List Entry
  | [] => (0, [])
  | e :: rest =>
    let r := deleteFilesLoop rest
    if isFileEntry e then (r.1 + 1, r.2) else (r.1, e :: r.2)

/-- Shallow embedding of `delete_directory_files` (src/server.py:65-88) with
no I/O failure: returns `(success, files_deleted)` and the directory's
contents afterwards (`none` models a missing directory, which the function
reports as `(True, 0)` untouched). -/
def delete_directory_files (bucket : Option (List Entry)) :
    (Bool × Nat) × Option (List Entry) :=
  match bucket with
  | none => ((true, 0), none)
  | some es => ((true, (deleteFilesLoop es).1), some (deleteFilesLoop es).2)

theorem deleteFilesLoop_eq (es : List Entry) :
    deleteFilesLoop es =
      ((es.filter isFileEntry).length, es.filter (fun e => !isFileEntry e)) := by
  induction es with
  | nil => rfl
  | cons e rest ih =>
    by_cases hf : isFileEntry e = true
    · simp [deleteFilesLoop, ih, hf, List.filter_cons]
    · have hf2 : isFileEntry e = false := Bool.of_not_eq_true hf
      simp [deleteFilesLoop, ih, hf2, List.filter_cons]

/-- C5: `clearAll` on an existing bucket deletes exactly the regular files
directly inside it (subdirectory entries are untouched, in order), reports a
deleted-count equal to the number of regular files present immediately
before the call, and an immediately subsequent listing of the bucket is
empty. -/
theorem clearAll_spec (es : List Entry) :
    delete_directory_files (some es) =
      ((true, (es.filter isFileEntry).length),
        some (es.filter (fun e => !isFileEntry e))) ∧
    visibleFiles (es.filter (fun e => !isFileEntry e)) = [] := by
  constructor
  · simp [delete_directory_files, deleteFilesLoop_eq]
  · unfold visibleFiles
    rw [List.filter_eq_nil_iff]
    intro a ha hvis
    have hnf := (List.mem_filter.mp ha).2
    have hfa : isFileEntry a = false := by
      cases h : isFileEntry a
      · rfl
      · rw [h] at hnf; simp at hnf
    rw [hfa] at hvis
    simp at hvis

/-- Embedding of `delete_directory_files` (src/server.py:65-88) with a
fallible `unlink`: `fails e` says that unlinking entry `e` raises.  The
loop deletes files in order; at the first failing unlink the exception
propagates to the handler (src/server.py:86-88), which returns `(False, 0)`.
Result: `((success, reported_count), (remaining entries, files actually
deleted))`; the counter `k` threads the deletions performed so far. -/
def deleteFilesFallible (fails : Entry → Bool) :
    List Entry → Nat → (Bool × Nat) × (List Entry × Nat)
  | [], k => ((true, k), ([], k))
  | e :: rest, k =>
    if isFileEntry e then
      if fails e then ((false, 0), (e :: rest, k))
      else deleteFilesFallible fails rest (k + 1)
    else
      let r := deleteFilesFallible fails rest k
      (r.1, (e :: r.2.1, r.2.2))

/-- `delete_directory_files` under a fallible `unlink`, starting from zero
deletions. -/
def delete_directory_files_fallible (fails : Entry → Bool) (es : List Entry) :
    (Bool × Nat) × (List Entry × Nat) :=
  deleteFilesFallible fails es 0

/-- Counterexample to C6: with two regular files where unlinking the second
fails, one deletion was actually performed but the function reports
`(False, 0)` — the reported count is 0, not the number of completed
deletions 1. -/
theorem partial_delete_count_counterexample :
    delete_directory_files_fallible (fun e => e.name == "b")
        [⟨"a", .file, 0, 0⟩, ⟨"b", .file, 0, 0⟩] =
      ((false, 0), ([⟨"b", .file, 0, 0⟩], 1)) ∧ (0 : Nat) ≠ 1 :=
  ⟨by decide, by decide⟩

theorem deleteFilesFallible_report (fails : Entry → Bool) :
    ∀ (es : List Entry) (k : Nat),
      ((deleteFilesFallible fails es k).1.1 = false →
        (deleteFilesFallible fails es k).1.2 = 0) ∧
      ((deleteFilesFallible fails es k).1.1 = true →
        (deleteFilesFallible fails es k).1.2 =
          (deleteFilesFallible fails es k).2.2) := by
  intro es
  induction es with
  | nil => intro k; simp [deleteFilesFallible]
  | cons e rest ih =>
    intro k
    by_cases hf : isFileEntry e = true
    · by_cases hx : fails e = true
      · simp [deleteFilesFallible, hf, hx]
      · have hx2 : fails e = false := Bool.of_not_eq_true hx
        simpa [deleteFilesFallible, hf, hx2] using ih (k + 1)
    · have hf2 : isFileEntry e = false := Bool.of_not_eq_true hf
      simpa [deleteFilesFallible, hf2] using ih k

/-- C6 (amended): when a deletion fails partway, `delete_directory_files`
reports `(False, 0)` — a count of 0 regardless of how many deletions were
actually performed before the failure (an all-or-nothing report); only on
full success does the reported count equal the number of deletions
performed. -/
theorem fallible_delete_report (fails : Entry → Bool) (es : List Entry) :
    ((delete_directory_files_fallible fails es).1.1 = false →
      (delete_directory_files_fallible fails es).1.2 = 0) ∧
    ((delete_directory_files_fallible fails es).1.1 = true →
      (delete_directory_files_fallible fails es).1.2 =
        (delete_directory_files_fallible fails es).2.2) :=
  deleteFilesFallible_report fails es 0

/-- Witness for `fallible_delete_report` at the two-file input whose second
unlink fails: the reported count is 0. -/
theorem fallible_delete_report_witness :
    (delete_directory_files_fallible (fun e => e.name == "b")
        [⟨"a", .file, 0, 0⟩, ⟨"b", .file, 0, 0⟩]).1.2 = 0 :=
  (fallible_delete_report (fun e => e.name == "b")
      [⟨"a", .file, 0, 0⟩, ⟨"b", .file, 0, 0⟩]).1 (by decide)

/- ## Listing order (src/server.py:205-214 and 341-369) -/

/-- The listing pipeline of `list_files` (src/server.py:341-369): the
recursively enumerated entries are filtered to non-hidden regular files and
sorted by modification time descending; `es` is the enumeration result. -/
def list_files (es : List Entry) : List Entry :=
  sortByMtimeDesc (visibleFiles es)

theorem mtimeLe_trans :
    ∀ a b c : Entry, mtimeLe a b → mtimeLe b c → mtimeLe a c := by
  intro a b c hab hbc
  simp only [mtimeLe, decide_eq_true_eq] at *
  omega

theorem mtimeLe_total : ∀ a b : Entry, mtimeLe a b || mtimeLe b a := by
  intro a b
  simp only [mtimeLe]
  by_cases h : b.mtime ≤ a.mtime
  · simp [h]
  · simp [h]
    omega

theorem sortByMtimeDesc_filter_mtime (es : List Entry) (t : Nat) :
    (sortByMtimeDesc es).filter (fun e => e.mtime == t) =
      es.filter (fun e => e.mtime == t) := by
  set p : Entry → Bool := fun e => e.mtime == t with hp
  have hsub : List.Sublist (es.filter p) es := List.filter_sublist es
  have hpw : (es.filter p).Pairwise (fun a b => mtimeLe a b) := by
    refine List.pairwise_of_forall_mem_list ?_
    intro a ha b hb
    have hat : a.mtime = t := by
      have := (List.mem_filter.mp ha).2
      simpa [hp] using this
    have hbt : b.mtime = t := by
      have := (List.mem_filter.mp hb).2
      simpa [hp] using this
    simp [mtimeLe, hat, hbt]
  have h3 : List.Sublist (es.filter p) (sortByMtimeDesc es) :=
    List.sublist_mergeSort mtimeLe_trans mtimeLe_total hpw hsub
  have hcf : (es.filter p).filter p = es.filter p :=
    List.filter_eq_self.mpr (fun a ha => (List.mem_filter.mp ha).2)
  have h5 : List.Sublist (es.filter p) ((sortByMtimeDesc es).filter p) := by
    have := h3.filter p
    rwa [hcf] at this
  have hperm : List.Perm ((sortByMtimeDesc es).filter p) (es.filter p) :=
    (List.mergeSort_perm es mtimeLe).filter p
  exact (h5.eq_of_length hperm.length_eq.symm).symm

/-- C7: multi-file listings (the Retrieve-today listing and List-files) are
ordered by modification time descending — a permutation of the enumerated
files that is pairwise non-increasing in mtime, strictly descending when
times are distinct — and ties are broken stably: for each time value, the
entries carrying it appear in their original enumeration order. -/
theorem listing_sorted_desc (es : List Entry) :
    (sortByMtimeDesc es).Perm es ∧
    (sortByMtimeDesc es).Pairwise (fun a b => b.mtime ≤ a.mtime) ∧
    (∀ t, (sortByMtimeDesc es).filter (fun e => e.mtime == t) =
      es.filter (fun e => e.mtime == t)) ∧
    list_files es = sortByMtimeDesc (visibleFiles es) := by
  refine ⟨List.mergeSort_perm es mtimeLe, ?_, ?_, rfl⟩
  · have := List.sorted_mergeSort mtimeLe_trans mtimeLe_total es
    exact this.imp (fun h => by simpa [mtimeLe] using h)
  · intro t
    exact sortByMtimeDesc_filter_mtime es t

/-- The t1 < t2 < t3 instance of C7: three files written at times 1, 2, 3
are listed as [t3, t2, t1]. -/
theorem listing_sorted_desc_example :
    sortByMtimeDesc [⟨"x", .file, 1, 0⟩, ⟨"y", .file, 2, 0⟩, ⟨"z", .file, 3, 0⟩] =
      [⟨"z", .file, 3, 0⟩, ⟨"y", .file, 2, 0⟩, ⟨"x", .file, 1, 0⟩] := by
  simp [sortByMtimeDesc, List.mergeSort, List.merge, mtimeLe]

/- ## Staged writes (src/server.py:298-300) -/

/-- A snapshot of the two relevant names during a write: the content found
under the final destination name and under a hypothetical temporary
name (`none` = name absent). -/
structure WriteSnap where
  finalName : Option (List Nat)
  tempName : Option (List Nat)
deriving DecidableEq

/-- Embedding of werkzeug `FileStorage.save(dst)` as called by `upload_file`
(src/server.py:298-300, `file.save(file_path)`): it opens the destination
path itself in write mode — creating or truncating it — and then copies the
stream into it chunk by chunk; no temporary name and no rename are
involved.  Snapshot `k` is the filesystem state after `k` chunks have been
written, snapshot 0 the state right after the truncating open. -/
def saveTrace (content : List Nat) : List WriteSnap :=
  (List.range (content.length + 1)).map
    (fun k => { finalName := some (content.take k), tempName := none })

/-- A write trace is staged iff no intermediate snapshot (all but the last)
shows the final name with anything other than the complete content: a
concurrent reader can never observe a zero-length or truncated file under
the final name. -/
def stagedTrace (content : List Nat) (tr : List WriteSnap) : Bool :=
  tr.dropLast.all
    (fun s => decide (s.finalName = none ∨ s.finalName = some content))

/-- Counterexample to C8: for a one-chunk upload the very first snapshot of
`file.save` — right after the truncating open — shows a zero-length file
under the final name, so the write is not staged and a concurrent reader
can observe a zero-length file. -/
theorem staged_write_counterexample :
    stagedTrace [7] (saveTrace [7]) = false ∧
    (saveTrace [7]).head? = some { finalName := some [], tempName := none } :=
  ⟨by decide, by decide⟩

/-- C8 (amended): `upload_file` writes are not staged: `file.save` truncates
the final path and then writes the stream into it in place, so snapshot `k`
of the write shows the final name holding the first `k` chunks, and for any
non-empty content the trace has an intermediate snapshot (the truncated
file) violating stagedness — a concurrent reader or a mid-stream disconnect
can observe a zero-length or partially-written file under the final name. -/
theorem save_unstaged (content : List Nat) (k : Nat) (hk : k ≤ content.length) :
    (saveTrace content)[k]? =
      some { finalName := some (content.take k), tempName := none } ∧
    (content ≠ [] → stagedTrace content (saveTrace content) = false) := by
  constructor
  · have hk2 : k < content.length + 1 := by omega
    simp [saveTrace, List.getElem?_map, List.getElem?_range, hk2]
  · intro hne
    have htr : (saveTrace content).dropLast =
        (List.range content.length).map
          (fun k => ({ finalName := some (content.take k), tempName := none } : WriteSnap)) := by
      simp [saveTrace, List.range_succ]
    have hlen : 0 < content.length := List.length_pos.mpr hne
    have hmem : ({ finalName := some [], tempName := none } : WriteSnap) ∈
        (saveTrace content).dropLast := by
      rw [htr]
      exact List.mem_map.mpr ⟨0, List.mem_range.mpr hlen, rfl⟩
    rw [stagedTrace]
    rw [Bool.eq_false_iff]
    intro hall
    have hpred := List.all_eq_true.mp hall _ hmem
    have hor := of_decide_eq_true hpred
    rcases hor with h1 | h2
    · exact Option.noConfusion h1
    · have hcontent : ([] : List Nat) = content := by injection h2
      exact hne hcontent.symm

/-- Witness for `save_unstaged` at a two-chunk content: after one chunk the
final name holds a strict prefix, and the trace is not staged. -/
theorem save_unstaged_witness :
    (saveTrace [7, 9])[1]? =
      some { finalName := some [7], tempName := none } ∧
    stagedTrace [7, 9] (saveTrace [7, 9]) = false :=
  ⟨(save_unstaged [7, 9] 1 (by decide)).1,
   (save_unstaged [7, 9] 1 (by decide)).2 (by decide)⟩

end Traders
